import Mathlib

/-!
# Verification of `src/modules/file/get_file_diff.ts`

A shallow embedding of the EIP-Bot file-diff module. The module retrieves a
file at the head and base revisions of a pull request, parses its front
matter, and normalizes it into a `FormattedFile` pair.

External collaborators (the GitHub content API, the PR context, the
front-matter parser, the encoding assertion, the filename identifier
extraction rule, the category classification rule, the user search API and
the author-token matcher) are imported by the source from other modules.
They are modelled as components of an explicit environment `Env` of fixed
functions, exactly as the source consumes them.

JavaScript-specific behaviour is modelled explicitly:
  * truthiness tests (`!x`) on optional strings and numbers, where
    `undefined`, `""` and `0` are falsy;
  * `x.toLowerCase()` on a possibly-`undefined` value, which raises a
    TypeError when the value is `undefined`;
  * `a || b` on an optional string;
  * `new Set(list)` as first-occurrence deduplication in insertion order.

Thrown string errors are modelled with `Except String`. Remote calls to
the user-search API and the warnings printed by `console.warn` are
recorded in an `AuthorEvent` trace so that claims about the number of
lookups and warnings can be stated.
-/

namespace EIPBot

/-- The pull-request context returned by `requirePr` (head and base shas). -/
structure PullRequest where
  headSha : String
  baseSha : String
  deriving Repr, DecidableEq

/-- The record returned by the GitHub `getContent` endpoint; every field the
source reads may be absent (`undefined`). -/
structure ContentFile where
  content : Option String
  encoding : Option String
  path : Option String
  name : Option String
  deriving Repr, DecidableEq

/-- The front-matter attributes the source reads (keys of
`FrontMatterAttributes`); each may be absent from the parsed mapping. -/
structure FrontMatterAttrs where
  eip : Option String
  status : Option String
  author : Option String
  category : Option String
  type : Option String
  deriving Repr, DecidableEq

/-- The result of the external front-matter parser: attributes plus body. -/
structure ParsedFM where
  attributes : FrontMatterAttrs
  body : String
  deriving Repr, DecidableEq

/-- `ParsedContent`: path, name and parsed front matter of a fetched file. -/
structure ParsedContent where
  path : String
  name : String
  content : ParsedFM
  deriving Repr, DecidableEq

/-- The record returned by the external `assertCategory` classification
rule: a canonical category and type. -/
structure CategoryInfo where
  category : Option String
  type : Option String
  deriving Repr, DecidableEq

/-- The normalized output record. `authors` is `none` when the author
attribute was absent; the set is modelled as a duplicate-free list in
insertion order (JS `Set` semantics). -/
structure FormattedFile where
  eipNum : Option String
  status : String
  authors : Option (List String)
  name : String
  filenameEipNum : Nat
  category : Option String
  type : Option String
  deriving Repr, DecidableEq

/-- The result of `getFileDiff`: the file formatted at head and at base. -/
structure FileDiff where
  head : FormattedFile
  base : FormattedFile
  deriving Repr, DecidableEq

/-- The input to `getFileDiff` (the source only reads `file.filename`). -/
structure FileRef where
  filename : String
  deriving Repr, DecidableEq

/-- The user-search response: `total_count` and the logins of `items`. -/
structure UserSearchResults where
  total_count : Nat
  items : List String
  deriving Repr, DecidableEq

/-- Observable side effects of author resolution: a remote user-search
lookup, or a `console.warn` message. -/
inductive AuthorEvent where
  | lookup (email : String)
  | warn (msg : String)
  deriving Repr, DecidableEq

/-- JS truthiness of a possibly-`undefined` string:
`undefined` and `""` are falsy. -/
def strTruthy : Option String → Bool
  | none => false
  | some s => s != ""

/-- JS truthiness of a possibly-`undefined` number:
`undefined` and `0` are falsy. -/
def natTruthy : Option Nat → Bool
  | none => false
  | some n => n != 0

/-- JS `s.toLowerCase()`, modelled as per-character lowercasing of the
string's characters. -/
def jsLower (s : String) : String := ⟨s.data.map Char.toLower⟩

/-- JS `author[0] === "@"`: the first character of `author` exists and is
the handle sigil (`undefined === "@"` is false for the empty string). -/
def firstCharIsAt (s : String) : Bool :=
  match s.data with
  | [] => false
  | c :: _ => c = '@'

/-- The error raised by JS when calling a method on `undefined`. -/
def jsTypeErrorMsg : String :=
  "TypeError: Cannot read properties of undefined"

/-- JS `x.toLowerCase()` on a possibly-`undefined` string: a TypeError
when `x` is `undefined`. -/
def jsToLowerCase : Option String → Except String String
  | none => Except.error jsTypeErrorMsg
  | some s => Except.ok (jsLower s)

/-- JS `a || b` for an optional string `a` (`undefined` and `""` fall
through to `b`). -/
def jsOrElse : Option String → String → String
  | none, b => b
  | some a, b => if a = "" then b else a

/-- One insertion step of JS `Set` construction. -/
def insertDedup (acc : List String) (x : String) : List String :=
  if x ∈ acc then acc else acc ++ [x]

/-- `new Set(list)`: first-occurrence deduplication, insertion order. -/
def jsSet (l : List String) : List String := l.foldl insertDedup []

/-- The external collaborators consumed by the module, as fixed functions.
Fallible collaborators return `Except String`. -/
structure Env where
  requirePr : Except String PullRequest
  getContent : String → String → Except String ContentFile
  requireEncoding : Option String → String → Except String Unit
  decodeContent : String → Option String → String
  frontmatter : String → ParsedFM
  requireFilenameEipNum : String → Option Nat
  assertCategory : Option String → String → Option String → Except String CategoryInfo
  searchUsers : String → Except String UserSearchResults
  matchAll : String → List String

/-- Shared stem of the three missing-field messages of `getParsedContent`:
`requested file ${filename} at ref sha ${sha}`. -/
def refMsgStem (filename sha : String) : String :=
  "requested file " ++ filename ++ " at ref sha " ++ sha

/-- Message thrown when the fetched record has falsy `content`. -/
def noContentMsg (filename sha : String) : String :=
  refMsgStem filename sha ++ " contains no content"

/-- Message thrown when the fetched record has falsy `path`. -/
def noPathMsg (filename sha : String) : String :=
  refMsgStem filename sha ++ " has no path"

/-- Message thrown when the fetched record has falsy `name`. -/
def noNameMsg (filename sha : String) : String :=
  refMsgStem filename sha ++ " has no name"

/-- Message thrown by `formatFile` when the filename yields no eip number:
`Failed to extract eip number from file "${file.path}"`. -/
def extractErrMsg (path : String) : String :=
  "Failed to extract eip number from file \"" ++ path ++ "\""

/-- The `console.warn` message of `findUserByEmail`. -/
def noUserWarnMsg (email : String) : String :=
  "No github user found, using email instead: " ++ email

/-- `getParsedContent(filename, sha)`: fetch the file at `sha`, check the
three required fields, validate the encoding, decode and parse. -/
def getParsedContent (env : Env) (filename sha : String) :
    Except String ParsedContent := do
  let data ← env.getContent filename sha
  if !(strTruthy data.content) then
    Except.error (noContentMsg filename sha)
  else if !(strTruthy data.path) then
    Except.error (noPathMsg filename sha)
  else if !(strTruthy data.name) then
    Except.error (noNameMsg filename sha)
  else do
    let _ ← env.requireEncoding data.encoding filename
    pure ⟨data.path.getD "", data.name.getD "",
      env.frontmatter (env.decodeContent (data.content.getD "") data.encoding)⟩

/-- `findUserByEmail(email)`: query the user-search API; on at least one
result return `"@" + login` of the first item, otherwise warn and return
`undefined`. The trace records the lookup and any warning. -/
def findUserByEmail (env : Env) (email : String) :
    Except String (Option String × List AuthorEvent) := do
  let results ← env.searchUsers email
  if decide (0 < results.total_count) && !results.items.isEmpty then
    pure (some ("@" ++ results.items.headD ""), [AuthorEvent.lookup email])
  else
    pure (none, [AuthorEvent.lookup email, AuthorEvent.warn (noUserWarnMsg email)])

/-- `resolveAuthor(author)`: a token starting with `"@"` is lowercased with
no remote lookup; any other token is treated as an email and resolved via
`findUserByEmail`, falling back to the raw token. -/
def resolveAuthor (env : Env) (author : String) :
    Except String (String × List AuthorEvent) :=
  if firstCharIsAt author then
    pure (jsLower author, [])
  else do
    let q ← findUserByEmail env author
    pure (jsLower (jsOrElse q.1 author), q.2)

/-- Monadic map over `Except`, preserving input order: the embedding of
`Promise.all(authors.map(resolveAuthor))`, whose joined output preserves
the order of the input tokens. -/
def traverseExcept (f : α → Except ε β) : List α → Except ε (List β)
  | [] => Except.ok []
  | x :: xs => do
    let y ← f x
    let ys ← traverseExcept f xs
    Except.ok (y :: ys)

/-- `getAuthors(rawAuthorList)`: `undefined` when the raw list is falsy;
otherwise extract tokens with the author matcher, resolve each and collect
into a set. The trace concatenates each token's events in input order. -/
def getAuthors (env : Env) (rawAuthorList : Option String) :
    Except String (Option (List String) × List AuthorEvent) := do
  if !(strTruthy rawAuthorList) then
    pure (none, [])
  else do
    let authors := env.matchAll (rawAuthorList.getD "")
    let resolved ← traverseExcept (resolveAuthor env) authors
    pure (some (jsSet (resolved.map Prod.fst)), (resolved.map Prod.snd).flatten)

/-- `formatFile(file)`: fail fast when the filename yields no truthy eip
number, then assemble the `FormattedFile` in the source's field order
(status lowercased, authors resolved, `assertCategory` invoked twice with
identical arguments). -/
def formatFile (env : Env) (file : ParsedContent) :
    Except String FormattedFile := do
  let filenameEipNum := env.requireFilenameEipNum file.name
  if !(natTruthy filenameEipNum) then
    Except.error (extractErrMsg file.path)
  else do
    let status ← jsToLowerCase file.content.attributes.status
    let authorsRes ← getAuthors env file.content.attributes.author
    let cat ← env.assertCategory file.content.attributes.category file.name
      file.content.attributes.type
    let typ ← env.assertCategory file.content.attributes.category file.name
      file.content.attributes.type
    pure ⟨file.content.attributes.eip, status, authorsRes.1, file.name,
      filenameEipNum.getD 0, cat.category, typ.type⟩

/-- `getFileDiff(file)`: require the PR context, fetch and parse the file
at head, fetch at base with fallback to head on any error, and format
both. -/
def getFileDiff (env : Env) (file : FileRef) : Except String FileDiff := do
  let pr ← env.requirePr
  let filename := file.filename
  let head ← getParsedContent env filename pr.headSha
  let base :=
    match getParsedContent env filename pr.baseSha with
    | Except.ok b => b
    | Except.error _ => head
  let fhead ← formatFile env head
  let fbase ← formatFile env base
  pure ⟨fhead, fbase⟩

/-! ## Concrete test environment for witnesses -/

/-- A fully populated attribute mapping. -/
def attrs0 : FrontMatterAttrs :=
  ⟨some "1", some "Draft", some "@Alice", some "Core", some "Standards Track"⟩

/-- A well-formed content record as returned by the GitHub API. -/
def goodData : ContentFile :=
  ⟨some "RAW", some "base64", some "EIPS/eip-1.md", some "eip-1.md"⟩

/-- A content record whose `content` field is absent and whose encoding
tag is unsupported. -/
def noContentData : ContentFile :=
  ⟨none, some "utf-16", some "EIPS/eip-9.md", some "eip-9.md"⟩

/-- A concrete environment: the head fetch succeeds (except for the file
`nocontent.md`, whose record lacks content), the base fetch fails with a
404, the filename `bad.md` yields no eip number, user search finds Carol
for her email and nobody otherwise, and the author matcher extracts a
single handle token from any non-empty list. -/
def env0 : Env :=
  ⟨Except.ok ⟨"headsha", "basesha"⟩,
   fun f s =>
     if f = "nocontent.md" then Except.ok noContentData
     else if s = "headsha" then Except.ok goodData
     else Except.error "404",
   fun enc _ => if enc = some "base64" then Except.ok () else Except.error "unsupported encoding",
   fun c _ => c,
   fun _ => ⟨attrs0, "body"⟩,
   fun n => if n = "bad.md" then none else some 1,
   fun _ _ _ => Except.ok ⟨some "core", some "standards"⟩,
   fun q => if q = "carol@x.com" then Except.ok ⟨1, ["Carol"]⟩ else Except.ok ⟨0, []⟩,
   fun raw => if raw = "" then [] else ["@Alice"]⟩

/-- The head-revision `ParsedContent` produced by `env0` for `eip-1.md`. -/
def file0 : ParsedContent := ⟨"EIPS/eip-1.md", "eip-1.md", ⟨attrs0, "body"⟩⟩

/-- The `FormattedFile` produced by `env0` for `file0`. -/
def ff0 : FormattedFile :=
  ⟨some "1", "draft", some ["@alice"], "eip-1.md", 1, some "core", some "standards"⟩

/-- The `FileDiff` produced by `env0` for `eip-1.md` (base fell back to
head, so both components coincide). -/
def fd0 : FileDiff := ⟨ff0, ff0⟩

/-- A parsed-content record whose filename yields an identifier but whose
`status` attribute is absent (all other attributes present). -/
def noStatusFile : ParsedContent :=
  ⟨"EIPS/eip-3.md", "eip-3.md",
   ⟨⟨some "3", none, some "@Alice", some "Core", some "Standards Track"⟩, "body"⟩⟩

/-- A parsed-content record with only the `status` attribute present. -/
def minimalFile : ParsedContent :=
  ⟨"EIPS/eip-4.md", "eip-4.md", ⟨⟨none, some "Final", none, none, none⟩, ""⟩⟩

/-- `msg` mentions `sub`: `sub` occurs verbatim inside `msg`. -/
def mentions (msg sub : String) : Prop := ∃ p q, msg = p ++ (sub ++ q)

/-! ## Helper lemmas -/

instance {ε α : Type} [DecidableEq ε] [DecidableEq α] :
    DecidableEq (Except ε α) := fun x y =>
  match x, y with
  | Except.ok a, Except.ok b =>
    if h : a = b then isTrue (by rw [h])
    else isFalse (fun hc => h (Except.ok.inj hc))
  | Except.ok _, Except.error _ => isFalse (fun hc => Except.noConfusion hc)
  | Except.error _, Except.ok _ => isFalse (fun hc => Except.noConfusion hc)
  | Except.error e, Except.error f =>
    if h : e = f then isTrue (by rw [h])
    else isFalse (fun hc => h (Except.error.inj hc))

@[simp]
theorem ok_bind (a : α) (f : α → Except ε β) :
    (Except.ok a >>= f : Except ε β) = f a := rfl

@[simp]
theorem error_bind (e : ε) (f : α → Except ε β) :
    (Except.error e >>= f : Except ε β) = Except.error e := rfl

@[simp]
theorem pure_eq_ok (a : α) : (pure a : Except ε α) = Except.ok a := rfl

theorem str_append_left_cancel {p x y : String} (h : p ++ x = p ++ y) :
    x = y := by
  apply String.ext
  have hd := congrArg String.data h
  simpa using hd

theorem at_append_ne_empty (s : String) : ("@" ++ s : String) ≠ "" := by
  intro h
  have hd := congrArg String.data h
  rw [String.data_append] at hd
  simp at hd

theorem traverse_resolve_handles (env : Env) (l : List String)
    (h : ∀ t ∈ l, firstCharIsAt t = true) :
    traverseExcept (resolveAuthor env) l =
      Except.ok (l.map fun t => (jsLower t, ([] : List AuthorEvent))) := by
  induction l with
  | nil => rfl
  | cons x xs ih =>
    have hx : firstCharIsAt x = true := h x (by simp)
    have ihh := ih fun t ht => h t (by simp [ht])
    simp [traverseExcept, resolveAuthor, hx, ihh]

theorem flatten_map_nil {α β : Type} (l : List α) :
    (l.map fun _ => ([] : List β)).flatten = [] := by
  induction l with
  | nil => rfl
  | cons x xs ih => simp [ih]

theorem getAuthors_some_eq (env : Env) (s : String) (hs : s ≠ "") :
    getAuthors env (some s) = (do
      let resolved ← traverseExcept (resolveAuthor env) (env.matchAll s)
      pure (some (jsSet (resolved.map Prod.fst)), (resolved.map Prod.snd).flatten)) := by
  have hst : strTruthy (some s) = true := by simp [strTruthy, hs]
  simp [getAuthors, hst]

theorem formatFile_ok_inv (env : Env) (file : ParsedContent)
    (r : FormattedFile) (h : formatFile env file = Except.ok r) :
    ∃ st a c, file.content.attributes.status = some st
      ∧ getAuthors env file.content.attributes.author = Except.ok a
      ∧ env.assertCategory file.content.attributes.category file.name
          file.content.attributes.type = Except.ok c
      ∧ r = ⟨file.content.attributes.eip, jsLower st, a.1, file.name,
          (env.requireFilenameEipNum file.name).getD 0, c.category, c.type⟩ := by
  simp only [formatFile] at h
  cases hg : natTruthy (env.requireFilenameEipNum file.name) with
  | false => rw [hg] at h; simp at h
  | true =>
    rw [hg] at h
    simp only [Bool.not_true, Bool.false_eq_true, if_false, ite_false] at h
    cases hst : file.content.attributes.status with
    | none => rw [hst] at h; simp [jsToLowerCase] at h
    | some st =>
      rw [hst] at h
      simp only [jsToLowerCase, ok_bind] at h
      cases ha : getAuthors env file.content.attributes.author with
      | error e => rw [ha] at h; simp at h
      | ok a =>
        rw [ha] at h
        simp only [ok_bind] at h
        cases hc : env.assertCategory file.content.attributes.category file.name
            file.content.attributes.type with
        | error e => rw [hc] at h; simp at h
        | ok c =>
          rw [hc] at h
          simp only [ok_bind, pure_eq_ok, Except.ok.injEq] at h
          exact ⟨st, a, c, rfl, rfl, rfl, h.symm⟩

/-! ## Claim theorems -/

/-- C7: for every parsed-content record whose name yields no identifier
under the external filename-extraction rule, `formatFile` fails with an
extraction error whose message names that record's path. The attribute
mapping is universally quantified and unconstrained, so the failure occurs
before any attribute is read: the result is the same extraction error for
every attribute mapping. -/
theorem formatFile_no_eip_num_extraction_error (env : Env)
    (path name body : String) (attrs : FrontMatterAttrs)
    (hex : env.requireFilenameEipNum name = none) :
    formatFile env ⟨path, name, ⟨attrs, body⟩⟩ = Except.error (extractErrMsg path)
    ∧ mentions (extractErrMsg path) path := by
  constructor
  · simp [formatFile, hex, natTruthy]
  · exact ⟨"Failed to extract eip number from file \"", "\"",
      by simp [extractErrMsg, String.append_assoc]⟩

/-- Witness for C7 at a concrete input: `env0` extracts no eip number from
the filename `bad.md`. -/
theorem formatFile_no_eip_num_extraction_error_witness :
    formatFile env0 ⟨"EIPS/bad.md", "bad.md", ⟨attrs0, "body"⟩⟩ =
      Except.error (extractErrMsg "EIPS/bad.md")
    ∧ mentions (extractErrMsg "EIPS/bad.md") "EIPS/bad.md" :=
  formatFile_no_eip_num_extraction_error env0 "EIPS/bad.md" "bad.md" "body" attrs0
    (by decide)

/-- C8: when the content-retrieval call succeeds but the returned record
lacks content, path or name, `getParsedContent` fails; the three
conditions are checked independently, produce pairwise distinct messages,
and each message names both the filename and the revision reference. -/
theorem getParsedContent_missing_field_checks (env : Env)
    (filename sha : String) (data : ContentFile)
    (hget : env.getContent filename sha = Except.ok data) :
    (strTruthy data.content = false →
      getParsedContent env filename sha = Except.error (noContentMsg filename sha))
    ∧ (strTruthy data.content = true → strTruthy data.path = false →
      getParsedContent env filename sha = Except.error (noPathMsg filename sha))
    ∧ (strTruthy data.content = true → strTruthy data.path = true →
        strTruthy data.name = false →
      getParsedContent env filename sha = Except.error (noNameMsg filename sha))
    ∧ noContentMsg filename sha ≠ noPathMsg filename sha
    ∧ noContentMsg filename sha ≠ noNameMsg filename sha
    ∧ noPathMsg filename sha ≠ noNameMsg filename sha
    ∧ mentions (noContentMsg filename sha) filename
    ∧ mentions (noContentMsg filename sha) sha
    ∧ mentions (noPathMsg filename sha) filename
    ∧ mentions (noPathMsg filename sha) sha
    ∧ mentions (noNameMsg filename sha) filename
    ∧ mentions (noNameMsg filename sha) sha := by
  refine ⟨?_, ?_, ?_, ?_, ?_, ?_, ?_, ?_, ?_, ?_, ?_, ?_⟩
  · intro h1; simp [getParsedContent, hget, h1]
  · intro h1 h2; simp [getParsedContent, hget, h1, h2]
  · intro h1 h2 h3; simp [getParsedContent, hget, h1, h2, h3]
  · intro hcontra
    unfold noContentMsg noPathMsg at hcontra
    exact absurd (str_append_left_cancel hcontra) (by decide)
  · intro hcontra
    unfold noContentMsg noNameMsg at hcontra
    exact absurd (str_append_left_cancel hcontra) (by decide)
  · intro hcontra
    unfold noPathMsg noNameMsg at hcontra
    exact absurd (str_append_left_cancel hcontra) (by decide)
  · exact ⟨"requested file ", " at ref sha " ++ (sha ++ " contains no content"),
      by simp [noContentMsg, refMsgStem, String.append_assoc]⟩
  · exact ⟨"requested file " ++ filename ++ " at ref sha ", " contains no content",
      by simp [noContentMsg, refMsgStem, String.append_assoc]⟩
  · exact ⟨"requested file ", " at ref sha " ++ (sha ++ " has no path"),
      by simp [noPathMsg, refMsgStem, String.append_assoc]⟩
  · exact ⟨"requested file " ++ filename ++ " at ref sha ", " has no path",
      by simp [noPathMsg, refMsgStem, String.append_assoc]⟩
  · exact ⟨"requested file ", " at ref sha " ++ (sha ++ " has no name"),
      by simp [noNameMsg, refMsgStem, String.append_assoc]⟩
  · exact ⟨"requested file " ++ filename ++ " at ref sha ", " has no name",
      by simp [noNameMsg, refMsgStem, String.append_assoc]⟩

/-- Witness for C8 at a concrete input: `env0` returns a record without
content for `nocontent.md`, and the fetch fails with the missing-content
message. -/
theorem getParsedContent_missing_field_checks_witness :
    getParsedContent env0 "nocontent.md" "somesha" =
      Except.error (noContentMsg "nocontent.md" "somesha") :=
  (getParsedContent_missing_field_checks env0 "nocontent.md" "somesha" noContentData
    (by decide)).1 (by decide)

/-- C9: `formatFile` is deterministic with respect to its input and the
environment of fixed external collaborators: two invocations on the same
`ParsedContent` yield structurally identical results (no hidden state). -/
theorem formatFile_deterministic (env : Env) (file : ParsedContent)
    (r₁ r₂ : Except String FormattedFile)
    (h₁ : formatFile env file = r₁) (h₂ : formatFile env file = r₂) :
    r₁ = r₂ := h₁.symm.trans h₂

/-- Witness for C9 at a concrete input: both invocations of `formatFile`
on `file0` produce `ff0`. -/
theorem formatFile_deterministic_witness :
    (Except.ok ff0 : Except String FormattedFile) = Except.ok ff0 :=
  formatFile_deterministic env0 file0 (Except.ok ff0) (Except.ok ff0)
    (by decide) (by decide)

/-- C10: the missing-content, missing-path and missing-name checks run
before the encoding tag is examined: even when the encoding assertion
rejects the record's encoding tag (hypothesis `henc`), a record lacking
content (or path, or name) makes `getParsedContent` fail with the
corresponding missing-field message, not the encoding error. -/
theorem getParsedContent_field_checks_precede_encoding (env : Env)
    (filename sha emsg : String) (data : ContentFile)
    (hget : env.getContent filename sha = Except.ok data)
    (_henc : env.requireEncoding data.encoding filename = Except.error emsg) :
    (strTruthy data.content = false →
      getParsedContent env filename sha = Except.error (noContentMsg filename sha))
    ∧ (strTruthy data.content = true → strTruthy data.path = false →
      getParsedContent env filename sha = Except.error (noPathMsg filename sha))
    ∧ (strTruthy data.content = true → strTruthy data.path = true →
        strTruthy data.name = false →
      getParsedContent env filename sha = Except.error (noNameMsg filename sha)) := by
  refine ⟨?_, ?_, ?_⟩
  · intro h1; simp [getParsedContent, hget, h1]
  · intro h1 h2; simp [getParsedContent, hget, h1, h2]
  · intro h1 h2 h3; simp [getParsedContent, hget, h1, h2, h3]

/-- Witness for C10 at a concrete input: the record served by `env0` for
`nocontent.md` has the unsupported encoding `utf-16` and no content, and
the fetch still fails with the missing-content message. -/
theorem getParsedContent_field_checks_precede_encoding_witness :
    getParsedContent env0 "nocontent.md" "x" =
      Except.error (noContentMsg "nocontent.md" "x") :=
  (getParsedContent_field_checks_precede_encoding env0 "nocontent.md" "x"
    "unsupported encoding" noContentData (by decide) (by decide)).1 (by decide)

/-- C1: when the head-revision fetch succeeds and the base-revision fetch
fails for any reason, `getFileDiff` returns (when it returns at all) a
`FileDiff` whose `base` is equal to its `head`: the head parsed content is
substituted for the base, and the base-fetch error is not propagated. -/
theorem getFileDiff_base_fallback_eq_head (env : Env) (file : FileRef)
    (pr : PullRequest) (hpr : env.requirePr = Except.ok pr)
    (hc : ParsedContent)
    (hh : getParsedContent env file.filename pr.headSha = Except.ok hc)
    (e : String)
    (hb : getParsedContent env file.filename pr.baseSha = Except.error e)
    (fd : FileDiff) (hfd : getFileDiff env file = Except.ok fd) :
    fd.base = fd.head := by
  simp only [getFileDiff, hpr, ok_bind, hh, hb] at hfd
  cases hf : formatFile env hc with
  | error e2 => rw [hf] at hfd; simp at hfd
  | ok ff =>
    rw [hf] at hfd
    simp only [ok_bind, pure_eq_ok, Except.ok.injEq] at hfd
    subst hfd
    rfl

/-- Witness for C1 at a concrete input: under `env0`, the head fetch of
`eip-1.md` succeeds, the base fetch fails with a 404, and the returned
diff has equal base and head. -/
theorem getFileDiff_base_fallback_eq_head_witness : fd0.base = fd0.head :=
  getFileDiff_base_fallback_eq_head env0 ⟨"eip-1.md"⟩ ⟨"headsha", "basesha"⟩
    (by decide) file0 (by decide) "404" (by decide) fd0 (by decide)

/-- C2 counterexample: the raw author list `some ""` is present, yet
`getAuthors` returns `undefined` (`none`) rather than an empty set,
because the source's `if (!rawAuthorList) return;` treats the present but
empty string as falsy. -/
theorem getAuthors_present_empty_cex :
    getAuthors env0 (some "") = Except.ok (none, [])
    ∧ (some "" : Option String) ≠ none := by decide

/-- C2 amended: `getAuthors` returns `undefined` exactly when the raw
author list argument is falsy, that is absent or the empty string; for a
present non-empty argument it returns a set. -/
theorem getAuthors_undefined_iff_absent_or_empty (env : Env)
    (raw : Option String) (res : Option (List String) × List AuthorEvent)
    (hres : getAuthors env raw = Except.ok res) :
    (res.1 = none ↔ (raw = none ∨ raw = some "")) := by
  cases raw with
  | none =>
    have h2 := (show getAuthors env none = Except.ok (none, []) from rfl).symm.trans hres
    obtain rfl := Except.ok.inj h2
    simp
  | some s =>
    by_cases hs : s = ""
    · subst hs
      have h2 :=
        (show getAuthors env (some "") = Except.ok (none, []) from rfl).symm.trans hres
      obtain rfl := Except.ok.inj h2
      simp
    · cases ht : traverseExcept (resolveAuthor env) (env.matchAll s) with
      | error e2 =>
        rw [getAuthors_some_eq env s hs, ht] at hres
        simp at hres
      | ok l =>
        rw [getAuthors_some_eq env s hs, ht] at hres
        simp only [ok_bind, pure_eq_ok, Except.ok.injEq] at hres
        subst hres
        simp [hs]

/-- Witness for C2's amended theorem at a concrete input: a present
non-empty author list yields a set (`some`), agreeing with the falsiness
of neither `none` nor `some ""`. -/
theorem getAuthors_undefined_iff_absent_or_empty_witness :
    ((some ["@alice"] : Option (List String)) = none ↔
      ((some "a" : Option String) = none ∨ (some "a" : Option String) = some "")) :=
  getAuthors_undefined_iff_absent_or_empty env0 (some "a") (some ["@alice"], [])
    (by decide)

/-- C3 counterexample: a parsed-content record whose filename yields an
identifier (`some 1`) but whose `status` attribute is absent makes
`formatFile` itself fail with a TypeError, because the source lowercases
the status attribute unconditionally; the absent attribute does not
surface as an undefined value passed through. -/
theorem formatFile_absent_status_fails_cex :
    formatFile env0 noStatusFile = Except.error jsTypeErrorMsg
    ∧ env0.requireFilenameEipNum noStatusFile.name = some 1 := by decide

/-- C3 amended: `formatFile` performs no attribute-presence validation of
its own for the `eip`, `author`, `category` and `type` attributes: each
may be absent and its possibly-undefined value is passed through into the
`FormattedFile` (or handed to the collaborators). The `status` attribute
is the exception: it is lowercased unconditionally, so its absence makes
`formatFile` fail with a TypeError. -/
theorem formatFile_attr_passthrough (env : Env) (file : ParsedContent)
    (hid : natTruthy (env.requireFilenameEipNum file.name) = true) :
    (∀ st, file.content.attributes.status = some st →
      ∀ a, getAuthors env file.content.attributes.author = Except.ok a →
      ∀ c, env.assertCategory file.content.attributes.category file.name
          file.content.attributes.type = Except.ok c →
      formatFile env file =
        Except.ok ⟨file.content.attributes.eip, jsLower st, a.1, file.name,
          (env.requireFilenameEipNum file.name).getD 0, c.category, c.type⟩)
    ∧ (file.content.attributes.status = none →
      formatFile env file = Except.error jsTypeErrorMsg) := by
  constructor
  · intro st hst a ha c hc
    simp [formatFile, hid, hst, jsToLowerCase, ha, hc]
  · intro hst
    simp [formatFile, hid, hst, jsToLowerCase]

/-- Witness for C3's amended theorem at a concrete input: a record with
only `status` present formats successfully, with `none` passed through for
`eip` and `authors`. -/
theorem formatFile_attr_passthrough_witness :
    formatFile env0 minimalFile =
      Except.ok ⟨none, "final", none, "eip-4.md", 1, some "core", some "standards"⟩ :=
  (formatFile_attr_passthrough env0 minimalFile (by decide)).1 "Final" (by decide)
    (none, []) (by decide) ⟨some "core", some "standards"⟩ (by decide)

/-- C4: for an author token not beginning with `@` (treated as an email),
when the user search returns at least one result the resolved value is
`"@" + login` of the first result, lowercased, with the lookup as the only
recorded event; when the search returns zero results the resolved value is
the raw email itself, lowercased, and exactly one warning is recorded
alongside the lookup. -/
theorem resolveAuthor_email_resolution (env : Env) (email : String)
    (hemail : firstCharIsAt email = false) :
    (∀ n login rest, env.searchUsers email = Except.ok ⟨n, login :: rest⟩ →
        0 < n →
      resolveAuthor env email =
        Except.ok (jsLower ("@" ++ login), [AuthorEvent.lookup email]))
    ∧ (env.searchUsers email = Except.ok ⟨0, []⟩ →
      resolveAuthor env email =
        Except.ok (jsLower email,
          [AuthorEvent.lookup email, AuthorEvent.warn (noUserWarnMsg email)])) := by
  constructor
  · intro n login rest hs hn
    simp [resolveAuthor, hemail, findUserByEmail, hs, hn, jsOrElse,
      at_append_ne_empty]
  · intro hs
    simp [resolveAuthor, hemail, findUserByEmail, hs, jsOrElse]

/-- Witness for C4 at concrete inputs: under `env0`, the email
`carol@x.com` has one search result with login `Carol` and resolves to
`@carol` with no warning; the email `dave@x.com` has zero results and
resolves to itself with exactly one warning. -/
theorem resolveAuthor_email_resolution_witness :
    resolveAuthor env0 "carol@x.com" =
      Except.ok ("@carol", [AuthorEvent.lookup "carol@x.com"])
    ∧ resolveAuthor env0 "dave@x.com" =
      Except.ok ("dave@x.com",
        [AuthorEvent.lookup "dave@x.com",
         AuthorEvent.warn (noUserWarnMsg "dave@x.com")]) :=
  ⟨(resolveAuthor_email_resolution env0 "carol@x.com" (by decide)).1 1 "Carol" []
      (by decide) (by decide),
   (resolveAuthor_email_resolution env0 "dave@x.com" (by decide)).2 (by decide)⟩

/-- C5: for every author list whose extracted tokens all begin with the
`@` sigil, `getAuthors` returns exactly the set of those tokens lowercased
(deduplicated, insertion order), and the event trace is empty: no remote
user-search lookup is invoked and no warning is emitted. -/
theorem getAuthors_all_handles_no_lookup (env : Env) (raw : String)
    (hraw : raw ≠ "")
    (h : ∀ t ∈ env.matchAll raw, firstCharIsAt t = true) :
    getAuthors env (some raw) =
      Except.ok (some (jsSet ((env.matchAll raw).map jsLower)), []) := by
  rw [getAuthors_some_eq env raw hraw, traverse_resolve_handles env _ h]
  simp only [ok_bind, pure_eq_ok, List.map_map]
  rw [show (Prod.fst ∘ fun t => (jsLower t, ([] : List AuthorEvent))) = jsLower from rfl,
    show (Prod.snd ∘ fun t => (jsLower t, ([] : List AuthorEvent)))
      = (fun _ => ([] : List AuthorEvent)) from rfl,
    flatten_map_nil]

/-- Witness for C5 at a concrete input: the author list `@Alice` extracts
the single handle token `@Alice` and resolves to the set containing
`@alice` with an empty event trace. -/
theorem getAuthors_all_handles_no_lookup_witness :
    getAuthors env0 (some "@Alice") = Except.ok (some ["@alice"], []) :=
  getAuthors_all_handles_no_lookup env0 "@Alice" (by decide) (by decide)

/-- C6: the `category` and `type` fields of a successful `formatFile`
result come from two `assertCategory` invocations with identical
arguments, the first read for `category` only and the second for `type`
only; since the classification rule is a fixed function of those three
inputs, the pair equals the result of a single classification call. -/
theorem formatFile_category_type_single_classification (env : Env)
    (file : ParsedContent) (r : FormattedFile) (c : CategoryInfo)
    (hr : formatFile env file = Except.ok r)
    (hcat : env.assertCategory file.content.attributes.category file.name
      file.content.attributes.type = Except.ok c) :
    r.category = c.category ∧ r.type = c.type := by
  obtain ⟨st, a, c2, hst, ha, hc2, hr2⟩ := formatFile_ok_inv env file r hr
  rw [hcat] at hc2
  injection hc2 with h2
  subst h2
  subst hr2
  exact ⟨rfl, rfl⟩

/-- Witness for C6 at a concrete input: `file0` formats to `ff0`, whose
category and type equal those of the single classification result of
`env0`. -/
theorem formatFile_category_type_single_classification_witness :
    ff0.category = some "core" ∧ ff0.type = some "standards" :=
  formatFile_category_type_single_classification env0 file0 ff0
    ⟨some "core", some "standards"⟩ (by decide) (by decide)

end EIPBot
